import Mathlib

set_option linter.unusedSectionVars false
set_option linter.unnecessarySeqFocus false

/-!
Shallow embedding of the bikeshare analysis tool (src/bikeshare.py,
src/lib/stats.py, src/lib/interface.py, src/lib/util.py) and proofs about
its statistical aggregation, filtering and menu-selection logic.

The tabular-data operations the source delegates to its dataframe library
(mode, value_counts, groupby(...).size().idxmax(), min, max, sum, mean,
boolean-mask filtering) are modelled here by executable list functions that
follow the library's documented behaviour: `mode` returns the modal values
sorted ascending, `value_counts` returns distinct values sorted by
descending count, `groupby` enumerates group keys in ascending sorted
order, and boolean-mask filtering keeps rows in table order.
-/

section ListMachinery

variable {α : Type} [DecidableEq α]

/-- Distinct values of a list (each value kept exactly once). Models the
set of distinct keys a dataframe grouping operation computes. -/
def distincts : List α → List α
  | [] => []
  | x :: xs => if x ∈ xs then distincts xs else x :: distincts xs

theorem mem_distincts {l : List α} {a : α} : a ∈ distincts l ↔ a ∈ l := by
  induction l with
  | nil => simp [distincts]
  | cons x xs ih =>
    by_cases hx : x ∈ xs
    · simp only [distincts, if_pos hx, List.mem_cons, ih]
      constructor
      · exact fun h => Or.inr h
      · rintro (rfl | h)
        · exact hx
        · exact h
    · simp [distincts, if_neg hx, ih]

theorem nodup_distincts (l : List α) : (distincts l).Nodup := by
  induction l with
  | nil => simp [distincts]
  | cons x xs ih =>
    by_cases hx : x ∈ xs
    · simpa [distincts, if_pos hx] using ih
    · simp only [distincts, if_neg hx]
      exact List.nodup_cons.mpr ⟨fun h => hx (mem_distincts.mp h), ih⟩

/-- Maximum of a list of naturals, 0 on the empty list. -/
def natMax : List Nat → Nat
  | [] => 0
  | x :: xs => max x (natMax xs)

theorem le_natMax_of_mem {l : List Nat} {a : Nat} (h : a ∈ l) : a ≤ natMax l := by
  induction l with
  | nil => cases h
  | cons x xs ih =>
    rcases List.mem_cons.mp h with rfl | h'
    · exact le_max_left _ _
    · exact le_trans (ih h') (le_max_right _ _)

theorem natMax_mem {l : List Nat} (h : l ≠ []) : natMax l ∈ l := by
  induction l with
  | nil => exact absurd rfl h
  | cons x xs ih =>
    rcases xs with _ | ⟨y, ys⟩
    · simp [natMax]
    · rcases le_total x (natMax (y :: ys)) with hle | hle
      · have : natMax (x :: y :: ys) = natMax (y :: ys) := max_eq_right hle
        rw [this]
        exact List.mem_cons_of_mem _ (ih (by simp))
      · have : natMax (x :: y :: ys) = x := max_eq_left hle
        rw [this]
        exact List.mem_cons_self _ _

/-- Occurrence count of a value in a column: `List.count` with its
`BEq` fixed to come from decidable equality, so that statements and
lemmas always agree on the instance. -/
def cnt (a : α) (l : List α) : Nat := List.count a l

/-- The highest occurrence count of any value in the list (the maximal
group size of the grouping the library's mode/idxmax reductions take). -/
def maxCount (l : List α) : Nat := natMax (l.map (fun x => cnt x l))

theorem count_le_maxCount (l : List α) (w : α) : cnt w l ≤ maxCount l := by
  by_cases hw : w ∈ l
  · exact le_natMax_of_mem (List.mem_map.mpr ⟨w, hw, rfl⟩)
  · simp only [cnt]
    rw [List.count_eq_zero.mpr hw]
    exact Nat.zero_le _

theorem maxCount_attained {l : List α} (h : l ≠ []) :
    ∃ v ∈ l, cnt v l = maxCount l := by
  have hmap : l.map (fun x => cnt x l) ≠ [] := by
    intro h'
    exact h (List.map_eq_nil_iff.mp h')
  obtain ⟨v, hv, hcv⟩ := List.mem_map.mp (natMax_mem hmap)
  exact ⟨v, hv, hcv⟩

/-- Insert an element into a list assumed sorted by the boolean
comparison `le`, keeping it sorted. -/
def insertLe (le : α → α → Bool) (x : α) : List α → List α
  | [] => [x]
  | y :: ys => if le x y then x :: y :: ys else y :: insertLe le x ys

/-- Insertion sort by the boolean comparison `le`. Models the ascending
key sort the dataframe library applies to mode results and group keys. -/
def sortLe (le : α → α → Bool) : List α → List α
  | [] => []
  | x :: xs => insertLe le x (sortLe le xs)

theorem perm_insertLe (le : α → α → Bool) (x : α) (l : List α) :
    (insertLe le x l).Perm (x :: l) := by
  induction l with
  | nil => exact List.Perm.refl _
  | cons y ys ih =>
    by_cases h : le x y
    · rw [insertLe, if_pos h]
    · rw [insertLe, if_neg h]
      exact (ih.cons y).trans (List.Perm.swap x y ys)

theorem perm_sortLe (le : α → α → Bool) (l : List α) : (sortLe le l).Perm l := by
  induction l with
  | nil => exact List.Perm.refl _
  | cons x xs ih =>
    exact (perm_insertLe le x (sortLe le xs)).trans (ih.cons x)

theorem mem_sortLe {le : α → α → Bool} {l : List α} {a : α} :
    a ∈ sortLe le l ↔ a ∈ l :=
  (perm_sortLe le l).mem_iff

theorem nodup_sortLe (le : α → α → Bool) {l : List α} (h : l.Nodup) :
    (sortLe le l).Nodup :=
  (perm_sortLe le l).symm.nodup h

theorem pairwise_insertLe {le : α → α → Bool}
    (htot : ∀ a b, le a b = true ∨ le b a = true)
    (htrans : ∀ a b c, le a b = true → le b c = true → le a c = true)
    {l : List α} (x : α) (hl : l.Pairwise (fun a b => le a b = true)) :
    (insertLe le x l).Pairwise (fun a b => le a b = true) := by
  induction l with
  | nil => simp [insertLe]
  | cons y ys ih =>
    rcases List.pairwise_cons.mp hl with ⟨hy, hys⟩
    by_cases h : le x y
    · rw [insertLe, if_pos h]
      refine List.pairwise_cons.mpr ⟨?_, hl⟩
      intro a ha
      rcases List.mem_cons.mp ha with rfl | ha'
      · exact h
      · exact htrans x y a h (hy a ha')
    · rw [insertLe, if_neg h]
      have hyx : le y x = true := (htot x y).resolve_left (fun hc => h hc)
      refine List.pairwise_cons.mpr ⟨?_, ih hys⟩
      intro a ha
      rcases List.mem_cons.mp ((perm_insertLe le x ys).mem_iff.mp ha) with rfl | h2
      · exact hyx
      · exact hy a h2

theorem pairwise_sortLe {le : α → α → Bool}
    (htot : ∀ a b, le a b = true ∨ le b a = true)
    (htrans : ∀ a b c, le a b = true → le b c = true → le a c = true)
    (l : List α) : (sortLe le l).Pairwise (fun a b => le a b = true) := by
  induction l with
  | nil => simp [sortLe]
  | cons x xs ih => exact pairwise_insertLe htot htrans x ih

/-- The sorted list of modal (maximum-frequency) values of `l`. Models the
dataframe library's `mode()` reduction, which returns all values sharing
the maximum frequency, sorted ascending by `le`. -/
def modeList (le : α → α → Bool) (l : List α) : List α :=
  (sortLe le (distincts l)).filter (fun x => cnt x l == maxCount l)

/-- The first entry of the sorted mode result: models `mode()[0]`, and
equally `groupby(keys).size().idxmax()` (first key of maximal group size
in ascending key order). `none` models the lookup failing on an empty
result. -/
def modeFirst (le : α → α → Bool) (l : List α) : Option α :=
  (modeList le l).head?

theorem modeList_ne_nil {le : α → α → Bool} {l : List α} (h : l ≠ []) :
    modeList le l ≠ [] := by
  obtain ⟨v, hv, hcv⟩ := maxCount_attained h
  have hvs : v ∈ sortLe le (distincts l) := mem_sortLe.mpr (mem_distincts.mpr hv)
  have : v ∈ modeList le l :=
    List.mem_filter.mpr ⟨hvs, by simpa using hcv⟩
  exact fun hnil => by simp [hnil] at this

theorem mem_modeList {le : α → α → Bool} {l : List α} {v : α}
    (h : v ∈ modeList le l) : v ∈ l ∧ cnt v l = maxCount l := by
  rcases List.mem_filter.mp h with ⟨hs, hc⟩
  exact ⟨mem_distincts.mp (mem_sortLe.mp hs), by simpa using hc⟩

/-- Full characterisation of `mode()[0]` on a non-empty list: it returns
a value of maximal frequency that is least, in the `le` order, among all
values of maximal frequency. -/
theorem modeFirst_spec {le : α → α → Bool}
    (htot : ∀ a b, le a b = true ∨ le b a = true)
    (htrans : ∀ a b c, le a b = true → le b c = true → le a c = true)
    {l : List α} (h : l ≠ []) :
    ∃ v, modeFirst le l = some v ∧ v ∈ l ∧ cnt v l = maxCount l ∧
      ∀ w ∈ l, cnt w l = maxCount l → le v w = true := by
  rcases hml : modeList le l with _ | ⟨v, rest⟩
  · exact absurd hml (modeList_ne_nil h)
  have hvmem : v ∈ modeList le l := by rw [hml]; exact List.mem_cons_self _ _
  obtain ⟨hvl, hvc⟩ := mem_modeList hvmem
  refine ⟨v, by simp [modeFirst, hml], hvl, hvc, ?_⟩
  intro w hw hwc
  have hwmem : w ∈ modeList le l := by
    refine List.mem_filter.mpr ⟨mem_sortLe.mpr (mem_distincts.mpr hw), ?_⟩
    simpa using hwc
  have hpw : (modeList le l).Pairwise (fun a b => le a b = true) :=
    List.Pairwise.filter _ (pairwise_sortLe htot htrans _)
  rw [hml] at hwmem hpw
  rcases List.mem_cons.mp hwmem with rfl | hwr
  · rcases htot w w with h' | h' <;> exact h'
  · exact (List.pairwise_cons.mp hpw).1 w hwr

end ListMachinery

section StringOrder

/-- Lexicographic strict comparison of character lists by code point,
the order the host language uses to compare strings (and hence the order
the dataframe library sorts string keys by). -/
def charsLtB : List Char → List Char → Bool
  | [], [] => false
  | [], _ :: _ => true
  | _ :: _, [] => false
  | c :: cs, d :: ds => if c < d then true else if d < c then false else charsLtB cs ds

theorem charsLtB_trans :
    ∀ a b c : List Char, charsLtB a b = true → charsLtB b c = true →
      charsLtB a c = true := by
  intro a
  induction a with
  | nil =>
    intro b c hab hbc
    cases b with
    | nil => cases hab
    | cons y ys =>
      cases c with
      | nil => cases hbc
      | cons z zs => rfl
  | cons x xs ih =>
    intro b c hab hbc
    cases b with
    | nil => cases hab
    | cons y ys =>
      cases c with
      | nil => cases hbc
      | cons z zs =>
        simp only [charsLtB] at hab hbc ⊢
        rcases lt_trichotomy x y with hxy | hxy | hxy
        · rcases lt_trichotomy y z with hyz | hyz | hyz
          · rw [if_pos (lt_trans hxy hyz)]
          · rw [if_pos (hyz ▸ hxy)]
          · rw [if_pos hyz, if_neg (not_lt_of_lt hyz)] at hbc
            cases hbc
        · subst hxy
          rw [if_neg (lt_irrefl x), if_neg (lt_irrefl x)] at hab
          rcases lt_trichotomy x z with hxz | hxz | hxz
          · rw [if_pos hxz]
          · subst hxz
            rw [if_neg (lt_irrefl x), if_neg (lt_irrefl x)] at hbc ⊢
            exact ih ys zs hab hbc
          · rw [if_neg (not_lt_of_lt hxz), if_pos hxz] at hbc
            cases hbc
        · rw [if_neg (not_lt_of_lt hxy), if_pos hxy] at hab
          cases hab

theorem charsLtB_trichotomy :
    ∀ a b : List Char, charsLtB a b = true ∨ a = b ∨ charsLtB b a = true := by
  intro a
  induction a with
  | nil =>
    intro b
    cases b with
    | nil => exact Or.inr (Or.inl rfl)
    | cons y ys => exact Or.inl rfl
  | cons x xs ih =>
    intro b
    cases b with
    | nil => exact Or.inr (Or.inr rfl)
    | cons y ys =>
      simp only [charsLtB]
      rcases lt_trichotomy x y with hxy | hxy | hxy
      · exact Or.inl (by rw [if_pos hxy])
      · subst hxy
        rcases ih ys with h | h | h
        · exact Or.inl (by rw [if_neg (lt_irrefl x), if_neg (lt_irrefl x)]; exact h)
        · exact Or.inr (Or.inl (by rw [h]))
        · exact Or.inr (Or.inr (by rw [if_neg (lt_irrefl x), if_neg (lt_irrefl x)]; exact h))
      · exact Or.inr (Or.inr (by rw [if_pos hxy]))

/-- Strict string comparison by code points. -/
def strLtB (a b : String) : Bool := charsLtB a.data b.data

/-- Non-strict string comparison by code points. -/
def strLeB (a b : String) : Bool := strLtB a b || a == b

theorem strLtB_trichotomy (a b : String) :
    strLtB a b = true ∨ a = b ∨ strLtB b a = true := by
  rcases charsLtB_trichotomy a.data b.data with h | h | h
  · exact Or.inl h
  · exact Or.inr (Or.inl (String.ext h))
  · exact Or.inr (Or.inr h)

theorem strLeB_total : ∀ a b : String, strLeB a b = true ∨ strLeB b a = true := by
  intro a b
  rcases strLtB_trichotomy a b with h | h | h
  · exact Or.inl (by simp [strLeB, h])
  · exact Or.inl (by simp [strLeB, h])
  · exact Or.inr (by simp [strLeB, h])

theorem strLeB_trans :
    ∀ a b c : String, strLeB a b = true → strLeB b c = true →
      strLeB a c = true := by
  intro a b c hab hbc
  simp only [strLeB, Bool.or_eq_true, beq_iff_eq] at hab hbc ⊢
  rcases hab with hab | rfl
  · rcases hbc with hbc | rfl
    · exact Or.inl (charsLtB_trans _ _ _ hab hbc)
    · exact Or.inl hab
  · exact hbc

/-- Lexicographic comparison of ordered station pairs, the order the
grouping operation sorts its two-column keys by. -/
def pairLeB (p q : String × String) : Bool :=
  strLtB p.1 q.1 || (p.1 == q.1 && strLeB p.2 q.2)

theorem pairLeB_total : ∀ p q : String × String,
    pairLeB p q = true ∨ pairLeB q p = true := by
  intro p q
  rcases strLtB_trichotomy p.1 q.1 with h | h | h
  · exact Or.inl (by simp [pairLeB, h])
  · rcases strLeB_total p.2 q.2 with h2 | h2
    · exact Or.inl (by simp [pairLeB, h, h2])
    · exact Or.inr (by simp [pairLeB, h, h2])
  · exact Or.inr (by simp [pairLeB, h])

theorem pairLeB_trans : ∀ p q r : String × String,
    pairLeB p q = true → pairLeB q r = true → pairLeB p r = true := by
  intro p q r hpq hqr
  simp only [pairLeB, Bool.or_eq_true, Bool.and_eq_true, beq_iff_eq] at hpq hqr ⊢
  rcases hpq with hpq | ⟨hpq1, hpq2⟩
  · rcases hqr with hqr | ⟨hqr1, hqr2⟩
    · exact Or.inl (charsLtB_trans _ _ _ hpq hqr)
    · exact Or.inl (by rw [strLtB] at hpq ⊢; rw [← hqr1]; exact hpq)
  · rcases hqr with hqr | ⟨hqr1, hqr2⟩
    · exact Or.inl (by rw [strLtB] at hqr ⊢; rw [hpq1]; exact hqr)
    · exact Or.inr ⟨hpq1.trans hqr1, strLeB_trans _ _ _ hpq2 hqr2⟩

/-- Boolean `≤` on naturals (the comparison used to sort numeric
month / weekday / hour mode values). -/
def natLeB (a b : Nat) : Bool := decide (a ≤ b)

theorem natLeB_total : ∀ a b : Nat, natLeB a b = true ∨ natLeB b a = true := by
  intro a b
  rcases le_total a b with h | h
  · exact Or.inl (by simp [natLeB, h])
  · exact Or.inr (by simp [natLeB, h])

theorem natLeB_trans :
    ∀ a b c : Nat, natLeB a b = true → natLeB b c = true → natLeB a c = true := by
  intro a b c hab hbc
  simp only [natLeB, decide_eq_true_iff] at hab hbc ⊢
  exact le_trans hab hbc

/-- Boolean `≤` on integers (the comparison used to sort birth-year
mode values). -/
def intLeB (a b : Int) : Bool := decide (a ≤ b)

theorem intLeB_total : ∀ a b : Int, intLeB a b = true ∨ intLeB b a = true := by
  intro a b
  rcases le_total a b with h | h
  · exact Or.inl (by simp [intLeB, h])
  · exact Or.inr (by simp [intLeB, h])

theorem intLeB_trans :
    ∀ a b c : Int, intLeB a b = true → intLeB b c = true → intLeB a c = true := by
  intro a b c hab hbc
  simp only [intLeB, decide_eq_true_iff] at hab hbc ⊢
  exact le_trans hab hbc

end StringOrder

section DataModel

/-- A parsed timestamp as produced by `convert_datetimes`
(src/lib/util.py): an absolute time in seconds together with the
calendar attributes the source reads off it (`dt.month`,
`dt.dayofweek`, `dt.hour`). -/
structure Timestamp where
  epochSec : Int
  month : Nat
  dayofweek : Nat
  hour : Nat
deriving DecidableEq

/-- One trip record, with the columns named in `COLS`
(src/lib/util.py lines 11-20). `tripDuration` is the stored
`Trip Duration` column. -/
structure Row where
  startTime : Timestamp
  endTime : Timestamp
  tripDuration : Int
  startStation : String
  endStation : String
  userType : String
  gender : String
  birthYear : Int
deriving DecidableEq

/-- A Trip Table: ordered rows plus the schema facts the source checks
with `in data.columns` (src/lib/stats.py lines 108, 114) — whether the
optional `Gender` and `Birth Year` columns exist. -/
structure Table where
  rows : List Row
  hasGender : Bool
  hasBirthYear : Bool
deriving DecidableEq

/-- The `Start Time` month column, `data[COLS['start_time']].dt.month`. -/
def startMonths (t : Table) : List Nat := t.rows.map (fun r => r.startTime.month)

/-- The `Start Time` weekday column, `data[COLS['start_time']].dt.dayofweek`. -/
def startDows (t : Table) : List Nat := t.rows.map (fun r => r.startTime.dayofweek)

/-- The `Start Time` hour column, `data[COLS['start_time']].dt.hour`. -/
def startHours (t : Table) : List Nat := t.rows.map (fun r => r.startTime.hour)

/-- The `Start Station` column. -/
def startStations (t : Table) : List String := t.rows.map (fun r => r.startStation)

/-- The `End Station` column. -/
def endStations (t : Table) : List String := t.rows.map (fun r => r.endStation)

/-- The ordered (start station, end station) pairs of the table, the
grouping key of `data.groupby([COLS['start_station'], COLS['end_station']])`. -/
def stationPairs (t : Table) : List (String × String) :=
  t.rows.map (fun r => (r.startStation, r.endStation))

/-- The `User Type` column. -/
def userTypes (t : Table) : List String := t.rows.map (fun r => r.userType)

/-- The `Gender` column (meaningful when `hasGender` is set). -/
def genders (t : Table) : List String := t.rows.map (fun r => r.gender)

/-- The `Birth Year` column (meaningful when `hasBirthYear` is set). -/
def birthYears (t : Table) : List Int := t.rows.map (fun r => r.birthYear)

/-- The exceptions the dataframe library raises out of the aggregation
functions, plus the `EmptyDatasetError` the specification asks for
(which lets its absence be stated). -/
inductive PdError
  | keyError
  | valueError
  | typeError
  | emptyDatasetError
deriving DecidableEq

/-- Lift an optional library result, raising `e` when it is missing. -/
def ofOption {α : Type} (o : Option α) (e : PdError) : Except PdError α :=
  match o with
  | some a => Except.ok a
  | none => Except.error e

end DataModel

section UtilEmbedding

/-- `calendar.month_name[1..12]`, the month-name table behind
`get_months_dict` (src/lib/util.py lines 73-93). -/
def month_names : List String :=
  ["January", "February", "March", "April", "May", "June", "July",
   "August", "September", "October", "November", "December"]

/-- `calendar.day_name[0..6]`, the day-name table behind
`get_days_dict` (src/lib/util.py lines 51-71). -/
def day_names : List String :=
  ["Monday", "Tuesday", "Wednesday", "Thursday", "Friday", "Saturday", "Sunday"]

/-- Lookup in the month number → name dictionary built by
`get_months_dict()`; `none` models the `KeyError` of a missing key. -/
def get_months_dict (m : Nat) : Option String := month_names.get? (m - 1)

/-- Lookup in the day number → name dictionary built by
`get_days_dict()`; `none` models the `KeyError` of a missing key. -/
def get_days_dict (d : Nat) : Option String := day_names.get? d

end UtilEmbedding

section StatsEmbedding

/-- The numeric value of a decimal digit string. -/
def digitsToNat (cs : List Char) : Nat :=
  cs.foldl (fun n c => n * 10 + (c.toNat - 48)) 0

/-- Decimal parsing of a string: succeeds exactly on non-empty
all-digit strings. -/
def parseNat? (s : String) : Option Nat :=
  if s.data ≠ [] ∧ s.data.all Char.isDigit then some (digitsToNat s.data) else none

/-- `datetime.strptime(s, '%H')` (src/lib/stats.py line 36): parses an
unpadded 1-2 digit hour in 0..23, raising `ValueError` otherwise (in
particular on the empty string). -/
def strptimeH (s : String) : Except PdError Nat :=
  match parseNat? s with
  | some n =>
    if s.data.length ≤ 2 ∧ n ≤ 23 then Except.ok n
    else Except.error PdError.valueError
  | none => Except.error PdError.valueError

/-- `dt.strftime('%I %p')` (src/lib/stats.py line 37): the two-digit
12-hour rendering of an hour with its AM/PM suffix. -/
def strftimeIp (h : Nat) : String :=
  let h12 := if h % 12 = 0 then 12 else h % 12
  (if h12 < 10 then "0" ++ toString h12 else toString h12) ++
    (if h % 24 < 12 then " AM" else " PM")

/-- The result record of `calc_popular_times`. -/
structure PopularTimes where
  month : String
  day_of_week : String
  hour : String
deriving DecidableEq

/-- `calc_popular_times` (src/lib/stats.py lines 8-39, duplicated at
src/bikeshare.py lines 240-271): modes of the start-time month, weekday
and hour columns (`mode()[0]` each), then month/day name lookups, then
the hour pushed through `strptime(str(hour)[1:], '%H')` and
`strftime('%I %p')`. -/
def calc_popular_times (data : Table) : Except PdError PopularTimes := do
  let m ← ofOption (modeFirst natLeB (startMonths data)) PdError.keyError
  let d ← ofOption (modeFirst natLeB (startDows data)) PdError.keyError
  let h ← ofOption (modeFirst natLeB (startHours data)) PdError.keyError
  let mname ← ofOption (get_months_dict m) PdError.keyError
  let dname ← ofOption (get_days_dict d) PdError.keyError
  let hparsed ← strptimeH ((toString h).drop 1)
  return { month := mname, day_of_week := dname, hour := strftimeIp hparsed }

/-- The result record of `calc_popular_stations`. -/
structure PopularStations where
  start_station : String
  end_station : String
  trip : String × String
deriving DecidableEq

/-- `calc_popular_stations` (src/lib/stats.py lines 41-62): `mode()[0]`
of the start and end station columns, and
`groupby([start, end]).size().idxmax()` for the most popular trip —
the first key of maximal group size in ascending (lexicographic) key
order. -/
def calc_popular_stations (data : Table) : Except PdError PopularStations := do
  let ss ← ofOption (modeFirst strLeB (startStations data)) PdError.keyError
  let es ← ofOption (modeFirst strLeB (endStations data)) PdError.keyError
  let tr ← ofOption (modeFirst pairLeB (stationPairs data)) PdError.valueError
  return { start_station := ss, end_station := es, trip := tr }

/-- The result record of `calc_trip_durations`; durations are in
seconds, `avg_time = none` models the `NaT` mean of an empty column. -/
structure TripDurations where
  total_time : Int
  avg_time : Option ℚ
deriving DecidableEq

/-- The per-row timestamp deltas
`data[COLS['end_time']] - data[COLS['start_time']]`. -/
def timeDeltas (t : Table) : List Int :=
  t.rows.map (fun r => r.endTime.epochSec - r.startTime.epochSec)

/-- `calc_trip_durations` (src/lib/stats.py lines 64-84): sum and mean
of the end-time minus start-time column. The stored `Trip Duration`
column is never read. The sum of an empty column is zero and its mean
is `NaT`. -/
def calc_trip_durations (data : Table) : TripDurations :=
  { total_time := (timeDeltas data).sum
    avg_time :=
      if data.rows.length = 0 then none
      else some ((((timeDeltas data).sum : Int) : ℚ) / (data.rows.length : ℚ)) }

/-- `value_counts()` over a string column: one `(value, count)` pair per
distinct value, sorted by descending count. -/
def value_counts (l : List String) : List (String × Nat) :=
  (sortLe (fun a b => decide (cnt b l ≤ cnt a l)) (distincts l)).map
    (fun v => (v, cnt v l))

/-- `int()` applied to a whole series (src/lib/stats.py line 117,
`int(data[...].mode())`): succeeds only when the series has exactly one
entry, raising `TypeError` otherwise. -/
def intOfSeries (l : List Int) : Except PdError Int :=
  match l with
  | [x] => Except.ok x
  | _ => Except.error PdError.typeError

/-- Minimum entry of an integer series; `none` on an empty series. -/
def seriesMin : List Int → Option Int
  | [] => none
  | x :: xs =>
    some (match seriesMin xs with
          | none => x
          | some m => min x m)

/-- Maximum entry of an integer series; `none` on an empty series. -/
def seriesMax : List Int → Option Int
  | [] => none
  | x :: xs =>
    some (match seriesMax xs with
          | none => x
          | some m => max x m)

/-- The result record of `calc_user_unfo`; `none` is the
"not applicable" sentinel (`None` in the source). -/
structure UserInfo where
  type_count : List (String × Nat)
  gender_count : Option (List (String × Nat))
  earliest_year : Option Int
  recent_year : Option Int
  common_year : Option Int
deriving DecidableEq

/-- `calc_user_unfo` (src/lib/stats.py lines 86-123): `value_counts` of
the user-type column; `value_counts` of the gender column when it
exists, else the sentinel; and, when the birth-year column exists,
`int(min)`, `int(max)` and `int(mode())` of it — the last raising
`TypeError` whenever the mode is not unique, and `ValueError`
(`int(nan)`) on an empty column. -/
def calc_user_unfo (data : Table) : Except PdError UserInfo := do
  let tc := value_counts (userTypes data)
  let gc := if data.hasGender then some (value_counts (genders data)) else none
  if data.hasBirthYear then
    let ey ← ofOption (seriesMin (birthYears data)) PdError.valueError
    let ry ← ofOption (seriesMax (birthYears data)) PdError.valueError
    let cy ← intOfSeries (modeList intLeB (birthYears data))
    return { type_count := tc, gender_count := gc,
             earliest_year := some ey, recent_year := some ry,
             common_year := some cy }
  else
    return { type_count := tc, gender_count := gc,
             earliest_year := none, recent_year := none, common_year := none }

end StatsEmbedding

section InterfaceEmbedding

/-- `get_filtered_data` (src/lib/interface.py lines 34-78): the chosen
month filter, if any, keeps the rows whose start-time month equals the
choice (`data[data[...].dt.month == month]`), and the chosen weekday
filter, if any, then keeps the rows whose start-time weekday equals the
choice. `none` models the user answering no to the corresponding
question. -/
def get_filtered_data (data : Table) (month : Option Nat) (day : Option Nat) :
    Table :=
  let d1 :=
    match month with
    | some m => { data with rows := data.rows.filter (fun r => r.startTime.month == m) }
    | none => data
  match day with
  | some dw => { d1 with rows := d1.rows.filter (fun r => r.startTime.dayofweek == dw) }
  | none => d1

/-- `str.isnumeric()` restricted to the decimal-digit strings the rest
of `is_selection_valid` can consume: non-empty and all digits. -/
def isnumeric (s : String) : Bool := !s.data.isEmpty && s.data.all Char.isDigit

/-- `int()` of a digit string (total here because it is only applied
after `isnumeric` passes). -/
def pyInt (s : String) : Nat := (parseNat? s).getD 0

/-- `is_selection_valid` (src/lib/interface.py lines 103-121): the
choice must be numeric and then `int(choice) < 0 or
int(choice) > len(choices)` rejects it. -/
def is_selection_valid (choices : List String) (choice : String) : Bool :=
  if ¬ isnumeric choice then false
  else if (pyInt choice : Int) < 0 ∨ (pyInt choice : Int) > choices.length then false
  else true

/-- Python list indexing `l[i]`, where a negative index counts from the
end; `none` models `IndexError`. -/
def pyIndex {α : Type} (l : List α) (i : Int) : Option α :=
  if i ≥ 0 then l.get? i.toNat
  else if (-i).toNat ≤ l.length then l.get? (l.length - (-i).toNat)
  else none

/-- One iteration of the `get_selection` loop (src/lib/interface.py
lines 80-101) on a candidate input: an invalid input yields `none` (the
loop re-prompts), a valid one indexes `choices[int(choice) - 1]`. -/
def get_selection_result (choices : List String) (choice : String) :
    Option String :=
  if is_selection_valid choices choice then
    pyIndex choices ((pyInt choice : Int) - 1)
  else none

end InterfaceEmbedding

section ConcreteTables

/-- Shorthand for a concrete timestamp. -/
def mkTs (e : Int) (m dw h : Nat) : Timestamp :=
  { epochSec := e, month := m, dayofweek := dw, hour := h }

/-- Shorthand for a concrete row. -/
def mkRow (st et : Timestamp) (dur : Int) (ss es ut g : String) (yr : Int) :
    Row :=
  { startTime := st, endTime := et, tripDuration := dur, startStation := ss,
    endStation := es, userType := ut, gender := g, birthYear := yr }

/-- A one-row table whose modal start-time hour is 17. -/
def tableH17 : Table :=
  { rows := [mkRow (mkTs 0 6 2 17) (mkTs 3600 6 2 18) 3600
               ("A") ("B") ("Subscriber") ("Male") 1990],
    hasGender := true, hasBirthYear := true }

/-- A one-row table whose modal start-time hour is 8. -/
def tableH8 : Table :=
  { rows := [mkRow (mkTs 0 6 2 8) (mkTs 3600 6 2 9) 3600
               ("A") ("B") ("Subscriber") ("Male") 1990],
    hasGender := true, hasBirthYear := true }

/-- The empty Trip Table (all schema columns present, zero rows). -/
def emptyTable : Table := { rows := [], hasGender := true, hasBirthYear := true }

/-- A row carrying a given birth year (other fields fixed). -/
def yearRow (y : Int) : Row :=
  mkRow (mkTs 0 6 2 10) (mkTs 3600 6 2 11) 3600
    ("S1") ("S2") ("Subscriber") ("Male") y

/-- Four rows whose birth years are tied between 1990 and 1991. -/
def tableC4 : Table :=
  { rows := [yearRow 1990, yearRow 1990, yearRow 1991, yearRow 1991],
    hasGender := true, hasBirthYear := true }

/-- Four rows with a unique modal birth year 1990. -/
def tableC4u : Table :=
  { rows := [yearRow 1980, yearRow 1990, yearRow 1990, yearRow 1995],
    hasGender := true, hasBirthYear := true }

/-- The same rows with the `Birth Year` column absent from the schema. -/
def tableC4n : Table :=
  { rows := [yearRow 1980, yearRow 1990, yearRow 1990, yearRow 1995],
    hasGender := true, hasBirthYear := false }

end ConcreteTables

/-- Claim C1: the specification says the modal start-time hour h is
rendered as a two-digit 12-hour clock string with an AM/PM suffix
(h = 17 giving "05 PM", h = 8 giving "08 AM"). The code instead feeds
`str(hour)[1:]` — the hour's decimal representation with its first
character removed — to `strptime('%H')`, so a table with modal hour 17
yields "07 AM" instead of "05 PM", a modal hour 8 raises `ValueError`
(empty string), and no hour in 0..23 is ever rendered correctly. -/
theorem c1_hour_rendering_bug :
    calc_popular_times tableH17 =
      Except.ok { month := ("June"), day_of_week := ("Wednesday"),
                  hour := ("07 AM") } ∧
    strftimeIp 17 = "05 PM" ∧
    strftimeIp 8 = "08 AM" ∧
    calc_popular_times tableH8 = Except.error PdError.valueError ∧
    (∀ h : Fin 24,
      Except.toOption (Except.map strftimeIp (strptimeH ((toString h.1).drop 1)))
        ≠ some (strftimeIp h.1)) := by
  refine ⟨rfl, rfl, rfl, rfl, ?_⟩
  decide

/-- Claim C2 counterexample: on the empty Trip Table the aggregations do
not raise a clear `EmptyDatasetError`: `calc_popular_times` and
`calc_popular_stations` propagate the library lookup error raised by
`mode()[0]` on an empty mode result, and `calc_trip_durations` does not
fail at all (it returns a zero total and an undefined `NaT` mean). -/
theorem c2_empty_counterexample :
    calc_popular_times emptyTable = Except.error PdError.keyError ∧
    calc_popular_times emptyTable ≠ Except.error PdError.emptyDatasetError ∧
    calc_popular_stations emptyTable = Except.error PdError.keyError ∧
    calc_popular_stations emptyTable ≠ Except.error PdError.emptyDatasetError ∧
    calc_trip_durations emptyTable = { total_time := 0, avg_time := none } := by
  refine ⟨rfl, ?_, rfl, ?_, rfl⟩
  · intro h
    exact absurd (Except.error.inj h) (by intro h'; cases h')
  · intro h
    exact absurd (Except.error.inj h) (by intro h'; cases h')

/-- Claim C2 amended: on any zero-row Trip Table, `calc_popular_times`
and `calc_popular_stations` fail with the library's low-level lookup
error from `mode()[0]` (no `EmptyDatasetError` exists in the code), and
`calc_trip_durations` returns a zero total and an undefined mean
instead of failing. -/
theorem c2_empty_behavior (t : Table) (h : t.rows = []) :
    calc_popular_times t = Except.error PdError.keyError ∧
    calc_popular_stations t = Except.error PdError.keyError ∧
    calc_trip_durations t = { total_time := 0, avg_time := none } := by
  rcases t with ⟨rows, hg, hb⟩
  replace h : rows = [] := h
  subst h
  exact ⟨rfl, rfl, rfl⟩

/-- Claim C2 witness: the amended statement applied to the concrete
empty table. -/
theorem c2_empty_behavior_witness :
    calc_popular_times emptyTable = Except.error PdError.keyError ∧
    calc_popular_stations emptyTable = Except.error PdError.keyError ∧
    calc_trip_durations emptyTable = { total_time := 0, avg_time := none } :=
  c2_empty_behavior emptyTable rfl

/-- Claim C4: on a table whose `Birth Year` column has a frequency tie
(years 1990, 1990, 1991, 1991), the spec says the most frequent year is
returned with the tie broken towards the smallest year (1990). The code
computes `int(data['Birth Year'].mode())` without selecting a single
entry, and `int()` of the two-element mode series raises `TypeError`,
so `calc_user_unfo` fails instead of returning 1990. On a unique mode
the min/max/mode triple is returned, and with the column absent all
three results are the sentinel, as claimed. -/
theorem c4_birth_year_mode_bug :
    calc_user_unfo tableC4 = Except.error PdError.typeError ∧
    modeList intLeB (birthYears tableC4) = [1990, 1991] ∧
    (modeList intLeB (birthYears tableC4)).head? = some 1990 ∧
    calc_user_unfo tableC4u =
      Except.ok { type_count := [(("Subscriber"), 4)],
                  gender_count := some [(("Male"), 4)],
                  earliest_year := some 1980, recent_year := some 1995,
                  common_year := some 1990 } ∧
    calc_user_unfo tableC4n =
      Except.ok { type_count := [(("Subscriber"), 4)],
                  gender_count := some [(("Male"), 4)],
                  earliest_year := none, recent_year := none,
                  common_year := none } := by
  exact ⟨rfl, rfl, rfl, rfl, rfl⟩

/-- Claim C9: the spec says the menu validity check accepts exactly the
numerals with 1 ≤ int(c) ≤ len(choices). The code's bounds check is
`int(choice) < 0 or int(choice) > len(choices)`, so the numeral "0" is
also accepted, and `choices[0 - 1]` then returns the LAST element
through negative indexing instead of re-prompting. In-range numerals
behave as claimed. -/
theorem c9_selection_zero_bug :
    is_selection_valid [("a"), ("b")] ("0") = true ∧
    get_selection_result [("a"), ("b")] ("0") = some ("b") ∧
    is_selection_valid [("a"), ("b")] ("1") = true ∧
    get_selection_result [("a"), ("b")] ("1") = some ("a") ∧
    is_selection_valid [("a"), ("b")] ("2") = true ∧
    get_selection_result [("a"), ("b")] ("2") = some ("b") ∧
    is_selection_valid [("a"), ("b")] ("3") = false ∧
    is_selection_valid [("a"), ("b")] ("x") = false ∧
    is_selection_valid [("a"), ("b")] ("") = false := by
  decide

/-- A row travelling from `ss` to `es` (other fields fixed). -/
def pairRow (ss es : String) : Row :=
  mkRow (mkTs 0 6 2 10) (mkTs 3600 6 2 11) 3600 ss es
    ("Subscriber") ("Male") 1990

/-- Two rows whose station pairs (B,A) and (A,B) are tied at one
occurrence each; (B,A) is encountered first in row order. -/
def tableC3 : Table :=
  { rows := [pairRow ("B") ("A"), pairRow ("A") ("B")],
    hasGender := true, hasBirthYear := true }

/-- Claim C3 counterexample: in `tableC3` the pair (B,A) is the tied
pair first encountered in row order, yet `calc_popular_stations`
returns (A,B): the grouping sorts its keys, so `idxmax` resolves ties
towards the lexicographically smallest pair, not the first-encountered
one. -/
theorem c3_tie_counterexample :
    (stationPairs tableC3).head? = some ((("B"), ("A"))) ∧
    cnt ((("B"), ("A"))) (stationPairs tableC3) = maxCount (stationPairs tableC3) ∧
    calc_popular_stations tableC3 =
      Except.ok { start_station := ("A"), end_station := ("A"),
                  trip := ((("A"), ("B"))) } ∧
    ((("A"), ("B")) : String × String) ≠ ((("B"), ("A"))) := by
  exact ⟨rfl, rfl, rfl, by decide⟩

/-- Claim C3 amended: on every non-empty Trip Table,
`calc_popular_stations` returns as `trip` a station pair of maximal
occurrence count that is least, in lexicographic order of the ordered
pair, among all pairs of maximal count (the grouping enumerates its
keys in ascending sorted order, so `idxmax` breaks ties towards the
lexicographically smallest pair). -/
theorem c3_trip_lex_tiebreak (t : Table) (h : t.rows ≠ []) :
    ∃ r, calc_popular_stations t = Except.ok r ∧
      r.trip ∈ stationPairs t ∧
      cnt r.trip (stationPairs t) = maxCount (stationPairs t) ∧
      ∀ q ∈ stationPairs t,
        cnt q (stationPairs t) = maxCount (stationPairs t) →
          pairLeB r.trip q = true := by
  have hne1 : startStations t ≠ [] := by simpa [startStations] using h
  have hne2 : endStations t ≠ [] := by simpa [endStations] using h
  have hne3 : stationPairs t ≠ [] := by simpa [stationPairs] using h
  obtain ⟨ss, hss, -, -, -⟩ := modeFirst_spec strLeB_total strLeB_trans hne1
  obtain ⟨es, hes, -, -, -⟩ := modeFirst_spec strLeB_total strLeB_trans hne2
  obtain ⟨tr, htr, htrmem, htrcnt, htrleast⟩ :=
    modeFirst_spec pairLeB_total pairLeB_trans hne3
  refine ⟨{ start_station := ss, end_station := es, trip := tr }, ?_,
    htrmem, htrcnt, htrleast⟩
  unfold calc_popular_stations
  rw [hss, hes, htr]
  rfl

/-- Claim C3 witness: the amended statement applied to the concrete
tied table. -/
theorem c3_trip_lex_tiebreak_witness :
    tableC3.rows ≠ [] ∧
    (∃ r, calc_popular_stations tableC3 = Except.ok r ∧
      r.trip ∈ stationPairs tableC3 ∧
      cnt r.trip (stationPairs tableC3) = maxCount (stationPairs tableC3) ∧
      ∀ q ∈ stationPairs tableC3,
        cnt q (stationPairs tableC3) = maxCount (stationPairs tableC3) →
          pairLeB r.trip q = true) :=
  ⟨by decide, c3_trip_lex_tiebreak tableC3 (by decide)⟩

/-- Whether a row passes the chosen month filter. -/
def monthMatches (m : Option Nat) (r : Row) : Bool :=
  match m with
  | some m0 => r.startTime.month == m0
  | none => true

/-- Whether a row passes the chosen weekday filter. -/
def dayMatches (d : Option Nat) (r : Row) : Bool :=
  match d with
  | some d0 => r.startTime.dayofweek == d0
  | none => true

/-- Claim C5: `get_filtered_data` returns exactly the rows of the input
whose start-time month equals the chosen month (when given) and whose
start-time weekday equals the chosen weekday (when given), the two
conditions AND-combined; a filter matching no rows yields an empty
table (the function is total), never an error. -/
theorem c5_filter_exact (data : Table) (m d : Option Nat) :
    (get_filtered_data data m d).rows =
      data.rows.filter (fun r => monthMatches m r && dayMatches d r) ∧
    ∀ r : Row, r ∈ (get_filtered_data data m d).rows ↔
      (r ∈ data.rows ∧ (∀ m0, m = some m0 → r.startTime.month = m0) ∧
       (∀ d0, d = some d0 → r.startTime.dayofweek = d0)) := by
  constructor
  · rcases m with _ | m0 <;> rcases d with _ | d0 <;>
      simp [get_filtered_data, monthMatches, dayMatches, List.filter_filter,
        Bool.and_comm]
  · intro r
    rcases m with _ | m0 <;> rcases d with _ | d0 <;>
      simp [get_filtered_data, List.mem_filter] <;> tauto

/-- Claim C10: filtering preserves the relative order of rows — the
rows of the filtered table form a subsequence of the input's rows, for
every month/weekday filter choice. -/
theorem c10_filter_subsequence (data : Table) (m d : Option Nat) :
    List.Sublist (get_filtered_data data m d).rows data.rows := by
  rcases m with _ | m0 <;> rcases d with _ | d0 <;>
    simp only [get_filtered_data]
  · exact List.Sublist.refl _
  · exact List.filter_sublist _
  · exact List.filter_sublist _
  · exact (List.filter_sublist _).trans (List.filter_sublist _)

/-- The mode reduction on this numeric column returns the smallest
value among those sharing the maximum frequency. -/
def modeSmallest (l : List Nat) : Prop :=
  ∃ v, modeFirst natLeB l = some v ∧ v ∈ l ∧ cnt v l = maxCount l ∧
    ∀ w ∈ l, cnt w l = maxCount l → v ≤ w

theorem modeSmallest_of_ne_nil {l : List Nat} (h : l ≠ []) : modeSmallest l := by
  obtain ⟨v, h1, h2, h3, h4⟩ := modeFirst_spec natLeB_total natLeB_trans h
  exact ⟨v, h1, h2, h3, fun w hw hc => by simpa [natLeB] using h4 w hw hc⟩

/-- Claim C6: for each of the three columns over which
`calc_popular_times` computes a mode (start-time month, weekday, hour
of a non-empty table), the `mode()[0]` reduction returns the smallest
value among those sharing the maximum frequency; in particular the mode
of the values [2, 2, 1, 1] is 1. -/
theorem c6_mode_smallest (t : Table) (h : t.rows ≠ []) :
    modeSmallest (startMonths t) ∧ modeSmallest (startDows t) ∧
    modeSmallest (startHours t) ∧
    modeFirst natLeB [2, 2, 1, 1] = some 1 := by
  refine ⟨?_, ?_, ?_, rfl⟩
  · exact modeSmallest_of_ne_nil (by simpa [startMonths] using h)
  · exact modeSmallest_of_ne_nil (by simpa [startDows] using h)
  · exact modeSmallest_of_ne_nil (by simpa [startHours] using h)

/-- Claim C6 witness: the statement applied to a concrete non-empty
table. -/
theorem c6_mode_smallest_witness :
    tableH17.rows ≠ [] ∧
    (modeSmallest (startMonths tableH17) ∧ modeSmallest (startDows tableH17) ∧
     modeSmallest (startHours tableH17) ∧
     modeFirst natLeB [2, 2, 1, 1] = some 1) :=
  ⟨by decide, c6_mode_smallest tableH17 (by decide)⟩

/-- Replace every row's stored `Trip Duration` column value by `f r`,
leaving all other columns unchanged. -/
def setDurations (t : Table) (f : Row → Int) : Table :=
  { t with rows := t.rows.map (fun r => { r with tripDuration := f r }) }

/-- Two rows whose timestamp deltas are 1h and 3h while their stored
`Trip Duration` column deliberately contains other values (999 and 1). -/
def tableC7 : Table :=
  { rows := [mkRow (mkTs 0 6 2 10) (mkTs 3600 6 2 11) 999
               ("A") ("B") ("Subscriber") ("Male") 1990,
             mkRow (mkTs 10000 6 3 10) (mkTs 20800 6 3 13) 1
               ("A") ("B") ("Subscriber") ("Male") 1990],
    hasGender := true, hasBirthYear := true }

/-- Claim C7: `calc_trip_durations` returns the sum and arithmetic mean
of the per-row end-time minus start-time differences, computed from the
two timestamp columns: two rows of 1h and 3h (with bogus stored
durations) give sum 4h and mean 2h, the result is invariant under
arbitrary rewrites of the stored `Trip Duration` column, and the total
is always the sum of the timestamp deltas. -/
theorem c7_durations_from_timestamps :
    (calc_trip_durations tableC7).total_time = 4 * 3600 ∧
    (calc_trip_durations tableC7).avg_time = some ((2 * 3600 : ℚ)) ∧
    (∀ (t : Table) (f : Row → Int),
      calc_trip_durations (setDurations t f) = calc_trip_durations t) ∧
    (∀ t : Table, (calc_trip_durations t).total_time = (timeDeltas t).sum) := by
  refine ⟨rfl, ?_, ?_, fun t => rfl⟩
  · show (if (2 : Nat) = 0 then none else
      some ((((timeDeltas tableC7).sum : Int) : ℚ) / ((tableC7.rows.length : Nat) : ℚ)))
        = some ((2 * 3600 : ℚ))
    norm_num [timeDeltas, tableC7, mkRow, mkTs]
  · intro t f
    have hdel : timeDeltas (setDurations t f) = timeDeltas t :=
      List.map_map (fun r : Row => r.endTime.epochSec - r.startTime.epochSec)
        (fun r : Row => { r with tripDuration := f r }) t.rows
    have hlen : (setDurations t f).rows.length = t.rows.length := by
      simp [setDurations]
    unfold calc_trip_durations
    rw [hdel, hlen]

theorem value_counts_entry {l : List String} {p : String × Nat}
    (hp : p ∈ value_counts l) : p.1 ∈ l ∧ p.2 = cnt p.1 l := by
  obtain ⟨v, hv, rfl⟩ := List.mem_map.mp hp
  exact ⟨mem_distincts.mp (mem_sortLe.mp hv), rfl⟩

theorem value_counts_fst (l : List String) :
    (value_counts l).map Prod.fst =
      sortLe (fun a b => decide (cnt b l ≤ cnt a l)) (distincts l) := by
  have hid : (Prod.fst ∘ fun v : String => (v, cnt v l)) = id := rfl
  rw [value_counts, List.map_map, hid, List.map_id]

theorem value_counts_fst_nodup (l : List String) :
    ((value_counts l).map Prod.fst).Nodup := by
  rw [value_counts_fst]
  exact nodup_sortLe _ (nodup_distincts l)

theorem value_counts_mem_fst {l : List String} {v : String} :
    v ∈ (value_counts l).map Prod.fst ↔ v ∈ l := by
  rw [value_counts_fst, mem_sortLe, mem_distincts]

theorem value_counts_sorted (l : List String) :
    (value_counts l).Pairwise (fun p q => q.2 ≤ p.2) := by
  have hp := @pairwise_sortLe String _ (fun a b => decide (cnt b l ≤ cnt a l))
    (fun a b => by
      rcases le_total (cnt b l) (cnt a l) with h | h
      · exact Or.inl (by simpa using h)
      · exact Or.inr (by simpa using h))
    (fun a b c hab hbc => by
      simp only [decide_eq_true_iff] at hab hbc ⊢
      exact le_trans hbc hab)
    (distincts l)
  exact hp.map (fun v => (v, cnt v l)) (fun a b h => by simpa using h)

/-- A row of a given user type and birth year (other fields fixed). -/
def typeRow (ut : String) (y : Int) : Row :=
  mkRow (mkTs 0 6 2 10) (mkTs 3600 6 2 11) 3600 ("S1") ("S2") ut
    ("Male") y

/-- A non-empty table with no `Gender` column whose `Birth Year` column
has tied modal years. -/
def tableC8 : Table :=
  { rows := [typeRow ("Subscriber") 1990, typeRow ("Customer") 1990,
             typeRow ("Subscriber") 1991, typeRow ("Subscriber") 1991],
    hasGender := false, hasBirthYear := true }

/-- Claim C8: the user-type (value, count) pairs come out ordered by
descending count, one pair per distinct value with its true count, and
a missing `Gender` column yields the sentinel while a present one
yields the same descending structure — but only when `calc_user_unfo`
returns at all: on `tableC8` (no Gender column, tied birth years) the
function instead raises `TypeError` out of `int(mode())` before
returning any user-type result, contradicting the claim's universal
quantification. The spec's own example column is also evaluated. -/
theorem c8_user_info :
    calc_user_unfo tableC8 = Except.error PdError.typeError ∧
    value_counts [("Subscriber"), ("Customer"), ("Subscriber")] =
      [((("Subscriber")), 2), ((("Customer")), 1)] ∧
    ∀ t : Table, t.rows ≠ [] →
      (t.hasBirthYear = false ∨ ∃ y, modeList intLeB (birthYears t) = [y]) →
      ∃ u, calc_user_unfo t = Except.ok u ∧
        u.type_count = value_counts (userTypes t) ∧
        u.type_count.Pairwise (fun p q => q.2 ≤ p.2) ∧
        (∀ p ∈ u.type_count, p.1 ∈ userTypes t ∧ p.2 = cnt p.1 (userTypes t)) ∧
        (u.type_count.map Prod.fst).Nodup ∧
        (∀ v : String, v ∈ u.type_count.map Prod.fst ↔ v ∈ userTypes t) ∧
        (t.hasGender = false → u.gender_count = none) ∧
        (t.hasGender = true → u.gender_count = some (value_counts (genders t))) := by
  refine ⟨rfl, rfl, ?_⟩
  intro t hne hok
  by_cases hb : t.hasBirthYear
  · rcases hok with hok | ⟨y, hy⟩
    · rw [hok] at hb; cases hb
    · obtain ⟨r, rs, hrows⟩ := List.exists_cons_of_ne_nil hne
      have hby : birthYears t = r.birthYear :: rs.map (fun x => x.birthYear) := by
        simp [birthYears, hrows]
      have hmin : ∃ m, seriesMin (birthYears t) = some m := by
        rw [hby]; exact ⟨_, rfl⟩
      have hmax : ∃ m, seriesMax (birthYears t) = some m := by
        rw [hby]; exact ⟨_, rfl⟩
      obtain ⟨m, hm⟩ := hmin
      obtain ⟨M, hM⟩ := hmax
      refine ⟨{ type_count := value_counts (userTypes t),
                gender_count :=
                  if t.hasGender then some (value_counts (genders t)) else none,
                earliest_year := some m, recent_year := some M,
                common_year := some y }, ?_, rfl, value_counts_sorted _,
              fun p hp => value_counts_entry hp, value_counts_fst_nodup _,
              fun v => value_counts_mem_fst, ?_, ?_⟩
      · simp only [calc_user_unfo, hb, hm, hM, hy, ofOption, intOfSeries,
          if_true]
        rfl
      · intro hg; simp [hg]
      · intro hg; simp [hg]
  · simp only [Bool.not_eq_true] at hb
    refine ⟨{ type_count := value_counts (userTypes t),
              gender_count :=
                if t.hasGender then some (value_counts (genders t)) else none,
              earliest_year := none, recent_year := none,
              common_year := none }, ?_, rfl, value_counts_sorted _,
            fun p hp => value_counts_entry hp, value_counts_fst_nodup _,
            fun v => value_counts_mem_fst, ?_, ?_⟩
    · simp only [calc_user_unfo, hb, Bool.false_eq_true, if_false]
      rfl
    · intro hg; simp [hg]
    · intro hg; simp [hg]

/-- Claim C8 witness: the positive part applied to a concrete non-empty
table without the `Birth Year` column. -/
theorem c8_user_info_witness :
    tableC4n.rows ≠ [] ∧
    (∃ u, calc_user_unfo tableC4n = Except.ok u ∧
      u.type_count = value_counts (userTypes tableC4n) ∧
      u.type_count.Pairwise (fun p q => q.2 ≤ p.2) ∧
      (∀ p ∈ u.type_count,
        p.1 ∈ userTypes tableC4n ∧ p.2 = cnt p.1 (userTypes tableC4n)) ∧
      (u.type_count.map Prod.fst).Nodup ∧
      (∀ v : String, v ∈ u.type_count.map Prod.fst ↔ v ∈ userTypes tableC4n) ∧
      (tableC4n.hasGender = false → u.gender_count = none) ∧
      (tableC4n.hasGender = true →
        u.gender_count = some (value_counts (genders tableC4n)))) :=
  ⟨by decide, c8_user_info.2.2 tableC4n (by decide) (Or.inl rfl)⟩
